import Mathlib

/-!
Shallow embedding of the dist_test test-selection pipeline
(python/disttest/mavenproject.py and bin/grind.py), together with theorems
settling the specification's claims about it.

String-handling helpers operate on the character list of a string so that
every definition is structurally recursive and evaluable by the kernel.
-/

/-- Models Python `s.endswith(p)`. -/
def strEndsWith (s p : String) : Bool :=
  s.data.drop (s.data.length - p.data.length) == p.data

/-- Models Python `s.startswith(p)`. -/
def strStartsWith (s p : String) : Bool :=
  s.data.take p.data.length == p.data

/-- Models the Python membership test `c in s` for a single character. -/
def strContainsChar (s : String) (c : Char) : Bool :=
  s.data.contains c

/-- Models the Python slice `s[:-n]` for `n > 0`: drop the last `n`
characters (clamped at the empty string, as in Python). -/
def strDropRight (s : String) (n : Nat) : String :=
  ⟨s.data.take (s.data.length - n)⟩

/-- Models `os.path.basename`: the part of the path after the last slash. -/
def basename (s : String) : String :=
  ⟨(s.data.reverse.takeWhile (fun c => c != '/')).reverse⟩

/-- Fuel-indexed glob matcher. Models the anchored full-string match that
`fnmatch.translate` plus `re.match` performs in IncludePatternsFilter:
a `*` matches any run of characters, a `?` matches any single character, and
any other character matches itself (character classes are not modelled; no
pattern in this development uses them). The fuel argument only forces
structural termination; `globMatch` supplies enough fuel for the match to be
decided completely. -/
def globMatchFuel : Nat → List Char → List Char → Bool
  | 0, _, _ => false
  | _ + 1, [], s => s.isEmpty
  | n + 1, p :: ps, s =>
    if p = '*' then
      match s with
      | [] => globMatchFuel n ps []
      | _ :: cs => globMatchFuel n ps s || globMatchFuel n ('*' :: ps) cs
    else
      match s with
      | [] => false
      | c :: cs => (if p = '?' then true else p == c) && globMatchFuel n ps cs

/-- Anchored glob match of a pattern against a whole string, as performed by
the compiled regexes in IncludePatternsFilter. -/
def globMatch (p s : String) : Bool :=
  globMatchFuel (p.data.length + s.data.length + 1) p.data s.data

/-!
Task manifest generation (TestRunner.isolate_hashes_to_tasks in bin/grind.py).
-/

/-- One task record of the manifest written by isolate_hashes_to_tasks. -/
structure TaskDescription where
  isolate_hash : String
  description : String
  timeout : Nat
deriving DecidableEq, Repr

/-- The output manifest: a document with the single top-level field tasks. -/
structure TaskManifest where
  tasks : List TaskDescription
deriving DecidableEq, Repr

/-- Models TestRunner.isolate_hashes_to_tasks from bin/grind.py. The input
JSON object maps logical names to content hashes; it is modelled as its list
of (name, hash) pairs in iteration order. Each pair yields one task record
whose isolate hash field is the hash, description is the name and timeout
is 300. -/
def isolate_hashes_to_tasks (inmap : List (String × String)) : TaskManifest :=
  ⟨inmap.map (fun kv => ⟨kv.2, kv.1, 300⟩)⟩

/-!
Pipeline control flow of TestRunner.run_tests in bin/grind.py, after the
packaging stage. The packaging stage (disttest/isolate.py) is an external
collaborator here; its output, the list i.isolated_files of generated
task-description files, is taken as an input of the model.
-/

/-- Arguments of the grind test subcommand that run_tests consults. -/
structure RunArgs where
  include_patterns : Option (List String)
  exclude_patterns : Option (List String)
  dry_run : Bool
deriving DecidableEq, Repr

/-- Observable events of run_tests, in order of occurrence: the no-tests
error report (carrying the patterns it logs), the batcharchive subprocess
invocation, the manifest write, and the submit subprocess invocation. -/
inductive RunEvent
  | noTestsError (include_patterns exclude_patterns : Option (List String))
  | batchArchive
  | writeManifest
  | submit
deriving DecidableEq, Repr

/-- Final outcome of run_tests: an explicit sys.exit with a code, an uncaught
exception (which terminates the interpreter with exit code 1), or normal
completion. -/
inductive RunOutcome
  | exited (code : Nat)
  | raised (msg : String)
  | finished
deriving DecidableEq, Repr

/-- Models TestRunner.run_tests from bin/grind.py: if no task-description
files were generated, log the no-tests error with the include and exclude
patterns and exit with code 2; otherwise run batcharchive (raising on a
nonzero returncode), write the manifest via isolate_hashes_to_tasks, and,
unless dry_run is set, run the submission client (raising on a nonzero
returncode). -/
def run_tests (isolatedFiles : List String) (args : RunArgs)
    (archiveReturncode submitReturncode : Int) : List RunEvent × RunOutcome :=
  if isolatedFiles.length = 0 then
    ([.noTestsError args.include_patterns args.exclude_patterns], .exited 2)
  else if archiveReturncode ≠ 0 then
    ([.batchArchive], .raised "isolate batcharchive failed")
  else if args.dry_run then
    ([.batchArchive, .writeManifest], .finished)
  else if submitReturncode ≠ 0 then
    ([.batchArchive, .writeManifest, .submit], .raised "dist_test client submit failed")
  else
    ([.batchArchive, .writeManifest, .submit], .finished)

/-- C6: isolate_hashes_to_tasks is total on its input mapping. For an input
of N (name, hash) pairs the manifest's single tasks field holds exactly N
records, the i-th having isolate hash equal to the i-th pair's hash,
description equal to its name, and timeout 300; no pair is dropped or
merged. -/
theorem isolate_hashes_to_tasks_total (inmap : List (String × String)) :
    (isolate_hashes_to_tasks inmap).tasks.length = inmap.length ∧
    ∀ i : Fin inmap.length,
      (isolate_hashes_to_tasks inmap).tasks[i.val]? =
        some ⟨(inmap.get i).2, (inmap.get i).1, 300⟩ := by
  constructor
  · simp [isolate_hashes_to_tasks]
  · intro i
    simp [isolate_hashes_to_tasks, List.getElem?_map, List.get_eq_getElem,
      List.getElem?_eq_getElem i.isLt]

/-- C7: with zero task-description files, run_tests reports the no-tests
error together with the include and exclude patterns in effect and exits
with code 2, which is nonzero and distinct (no other input ever yields exit
code 2); neither the archiving step, nor the manifest write, nor the
submission step occurs. -/
theorem run_tests_no_tests (args : RunArgs) (ar sr : Int) :
    run_tests [] args ar sr =
      ([.noTestsError args.include_patterns args.exclude_patterns], .exited 2) ∧
    (2 : Nat) ≠ 0 ∧
    (∀ f fs, (run_tests (f :: fs) args ar sr).2 ≠ .exited 2) := by
  refine ⟨rfl, by decide, ?_⟩
  intro f fs
  simp only [run_tests, List.length_cons]
  split_ifs <;> simp_all

/-!
Classfile filters (python/disttest/mavenproject.py).
-/

/-- Observable outputs of the external class descriptor reader
(classfile.Classfile): the originating file path, the fully-qualified class
name, and the interface and abstract flags. -/
structure Classfile where
  classfile : String
  classname : String
  is_interface : Bool
  is_abstract : Bool
deriving DecidableEq, Repr

/-- Models PotentialTestClassNameFilter.accept: the simple file name must
contain no nested-class marker, end in the compiled-class suffix and, with
that suffix removed, start with Test or end with Test or TestCase. -/
def PotentialTestClassNameFilter.accept (clazz : Classfile) : Bool :=
  let f := basename clazz.classfile
  if strContainsChar f '$' then false
  else if !strEndsWith f ".class" then false
  else
    let name := strDropRight f (".class".length)
    if !strStartsWith name "Test" && !strEndsWith name "Test" &&
        !strEndsWith name "TestCase" then false
    else true

/-- Models NoAbstractClassFilter.accept: reject interfaces and abstract
classes. -/
def NoAbstractClassFilter.accept (clazz : Classfile) : Bool :=
  !(clazz.is_interface || clazz.is_abstract)

/-- Models IncludePatternsFilter.accept: the fully-qualified class name must
match at least one of the filter's compiled patterns. -/
def IncludePatternsFilter.accept (patterns : List String) (clazz : Classfile) : Bool :=
  patterns.any (fun p => globMatch p clazz.classname)

/-- Models ExcludePatternsFilter.accept: the opposite of the include
filter. -/
def ExcludePatternsFilter.accept (patterns : List String) (clazz : Classfile) : Bool :=
  !IncludePatternsFilter.accept patterns clazz

/-- The four classfile filter variants that MavenProject builds its chain
from; the pattern variants carry the pattern list they were constructed
with. -/
inductive TestFilter
  | potentialTestClassName
  | noAbstractClass
  | includePatterns (patterns : List String)
  | excludePatterns (patterns : List String)
deriving DecidableEq, Repr

/-- Dispatch of accept over the filter variants. -/
def runFilter : TestFilter → Classfile → Bool
  | .potentialTestClassName, c => PotentialTestClassNameFilter.accept c
  | .noAbstractClass, c => NoAbstractClassFilter.accept c
  | .includePatterns ps, c => IncludePatternsFilter.accept ps c
  | .excludePatterns ps, c => ExcludePatternsFilter.accept ps c

/-- Models the filter-chain construction in MavenProject of python's
mavenproject.py: start from the default filters, then, whenever
include patterns are supplied (not None), insert an include filter at
position 0, and whenever exclude patterns are supplied, insert an exclude
filter at position 0. -/
def mkFilters (include_patterns exclude_patterns : Option (List String)) :
    List TestFilter :=
  let filters := [TestFilter.potentialTestClassName, TestFilter.noAbstractClass]
  let filters := match include_patterns with
    | some ps => TestFilter.includePatterns ps :: filters
    | none => filters
  match exclude_patterns with
  | some ps => TestFilter.excludePatterns ps :: filters
  | none => filters

/-- Models the filter application loop in MavenProject._walk: each filter of
the chain, in list order, keeps exactly the classfiles it accepts. -/
def selectTestClasses (filters : List TestFilter) (classfiles : List Classfile) :
    List Classfile :=
  filters.foldl (fun cs fil => cs.filter (fun c => runFilter fil c)) classfiles

/-- Acceptance by every filter of a chain. -/
def chainAccepts (filters : List TestFilter) (c : Classfile) : Bool :=
  filters.all (fun f => runFilter f c)

/-- Applying the filters one after the other keeps exactly the classfiles
accepted by every filter of the chain. -/
theorem selectTestClasses_eq_filter (filters : List TestFilter)
    (classfiles : List Classfile) :
    selectTestClasses filters classfiles =
      classfiles.filter (fun c => chainAccepts filters c) := by
  induction filters generalizing classfiles with
  | nil => simp [selectTestClasses, chainAccepts]
  | cons f fs ih =>
    simp only [selectTestClasses, List.foldl_cons] at *
    rw [ih, List.filter_filter]
    apply List.filter_congr
    intro c _
    simp [chainAccepts, Bool.and_comm]

/-- A concrete descriptor of a concrete test class, used to instantiate
several theorems. -/
def sampleTest : Classfile :=
  ⟨"m/target/test-classes/TestFoo.class", "TestFoo", false, false⟩

/-- Helper: what acceptance by the name-heuristic filter says about the
simple file name. -/
theorem potential_accept_spec (c : Classfile)
    (h : PotentialTestClassNameFilter.accept c = true) :
    strContainsChar (basename c.classfile) '$' = false ∧
    strEndsWith (basename c.classfile) ".class" = true ∧
    (strStartsWith (strDropRight (basename c.classfile) (".class".length)) "Test" = true ∨
     strEndsWith (strDropRight (basename c.classfile) (".class".length)) "Test" = true ∨
     strEndsWith (strDropRight (basename c.classfile) (".class".length)) "TestCase" = true) := by
  simp only [PotentialTestClassNameFilter.accept] at h
  split at h
  · exact absurd h (by simp)
  · split at h
    · exact absurd h (by simp)
    · split at h
      · exact absurd h (by simp)
      · rename_i h1 h2 h3
        refine ⟨by simpa using h1, by simpa using h2, ?_⟩
        cases ha : strStartsWith (strDropRight (basename c.classfile) (".class".length)) "Test"
        · cases hb : strEndsWith (strDropRight (basename c.classfile) (".class".length)) "Test"
          · cases hc : strEndsWith (strDropRight (basename c.classfile) (".class".length)) "TestCase"
            · exact absurd (by simp [ha, hb, hc]) h3
            · exact Or.inr (Or.inr rfl)
          · exact Or.inr (Or.inl rfl)
        · exact Or.inl rfl

/-- C2: exclude-pattern veto. A descriptor whose fully-qualified name
matches at least one supplied exclude pattern is never kept by the filter
chain, whatever include patterns are supplied and whatever the other
filters would say. -/
theorem exclude_pattern_veto (inc : Option (List String)) (excl : List String)
    (cs : List Classfile) (c : Classfile)
    (h : ∃ p ∈ excl, globMatch p c.classname = true) :
    c ∉ selectTestClasses (mkFilters inc (some excl)) cs := by
  rw [selectTestClasses_eq_filter]
  intro hmem
  have hacc := (List.mem_filter.mp hmem).2
  have hany : excl.any (fun p => globMatch p c.classname) = true := by
    rcases h with ⟨p, hp, hm⟩
    exact List.any_eq_true.mpr ⟨p, hp, hm⟩
  simp [chainAccepts, mkFilters, runFilter, ExcludePatternsFilter.accept,
    IncludePatternsFilter.accept, hany] at hacc

/-- Witness for the exclude-pattern veto: a concrete descriptor matching an
exclude pattern, and also an include pattern and every default filter, is
not selected. -/
theorem exclude_pattern_veto_witness :
    (∃ p ∈ ["Test*"], globMatch p "TestFoo" = true) ∧
    sampleTest ∉
      selectTestClasses (mkFilters (some ["*Foo"]) (some ["Test*"])) [sampleTest] :=
  ⟨⟨"Test*", by decide, by decide⟩,
   exclude_pattern_veto (some ["*Foo"]) ["Test*"] [sampleTest] sampleTest
     ⟨"Test*", by decide, by decide⟩⟩

/-- C3 counterexample: with both include and exclude patterns supplied, the
constructed chain is not include-first: it differs from the order stated in
the claim. -/
theorem filter_chain_order_counterexample :
    mkFilters (some ["a"]) (some ["b"]) ≠
      [TestFilter.includePatterns ["a"], TestFilter.excludePatterns ["b"],
       TestFilter.potentialTestClassName, TestFilter.noAbstractClass] := by
  decide

/-- C3 amended: with both include and exclude patterns supplied, the chain
evaluates the pattern-exclude filter first, then the pattern-include filter,
then the name-heuristic filter, then the concreteness filter. -/
theorem filter_chain_order (i e : List String) :
    mkFilters (some i) (some e) =
      [TestFilter.excludePatterns e, TestFilter.includePatterns i,
       TestFilter.potentialTestClassName, TestFilter.noAbstractClass] := rfl

/-- C4 counterexample: a pattern filter is constructed from an empty (but
supplied) pattern list, sits in the chain, and is invoked: it changes the
chain's verdict on a descriptor the default chain accepts. -/
theorem empty_pattern_filter_counterexample :
    TestFilter.includePatterns [] ∈ mkFilters (some []) none ∧
    chainAccepts (mkFilters none none) sampleTest = true ∧
    chainAccepts (mkFilters (some []) none) sampleTest = false := by
  decide

/-- C4 amended: a pattern filter is part of the chain exactly when its
pattern list is supplied (not None), even when the supplied list is empty;
the chain does consult such a filter: with an empty pattern list the include
filter rejects every descriptor and the exclude filter accepts every
descriptor. -/
theorem pattern_filter_construction (inc exc : Option (List String))
    (ps : List String) (c : Classfile) :
    (TestFilter.includePatterns ps ∈ mkFilters inc exc ↔ inc = some ps) ∧
    (TestFilter.excludePatterns ps ∈ mkFilters inc exc ↔ exc = some ps) ∧
    runFilter (TestFilter.includePatterns []) c = false ∧
    runFilter (TestFilter.excludePatterns []) c = true := by
  refine ⟨?_, ?_, rfl, rfl⟩ <;>
  · cases inc <;> cases exc <;> simp [mkFilters, eq_comm]

/-- C8: every classfile kept by the default filter chain (no user patterns
supplied) has a simple file name with no nested-class marker, ending in the
compiled-class suffix, whose class name starts with Test or ends with Test
or TestCase, and its descriptor reports neither interface nor abstract. -/
theorem default_chain_accepted_shape (cs : List Classfile) (c : Classfile)
    (h : c ∈ selectTestClasses (mkFilters none none) cs) :
    strContainsChar (basename c.classfile) '$' = false ∧
    strEndsWith (basename c.classfile) ".class" = true ∧
    (strStartsWith (strDropRight (basename c.classfile) (".class".length)) "Test" = true ∨
     strEndsWith (strDropRight (basename c.classfile) (".class".length)) "Test" = true ∨
     strEndsWith (strDropRight (basename c.classfile) (".class".length)) "TestCase" = true) ∧
    c.is_interface = false ∧ c.is_abstract = false := by
  rw [selectTestClasses_eq_filter] at h
  have hacc := (List.mem_filter.mp h).2
  have hpair : PotentialTestClassNameFilter.accept c = true ∧
      NoAbstractClassFilter.accept c = true := by
    simpa [chainAccepts, mkFilters, runFilter] using hacc
  have hname := potential_accept_spec c hpair.1
  have hno : c.is_interface = false ∧ c.is_abstract = false := by
    simpa [NoAbstractClassFilter.accept] using hpair.2
  exact ⟨hname.1, hname.2.1, hname.2.2, hno.1, hno.2⟩

/-- Witness for the shape of default-chain-accepted classfiles at a concrete
accepted descriptor. -/
theorem default_chain_accepted_shape_witness :
    sampleTest ∈ selectTestClasses (mkFilters none none) [sampleTest] ∧
    (strStartsWith (strDropRight (basename sampleTest.classfile) (".class".length)) "Test" = true ∨
     strEndsWith (strDropRight (basename sampleTest.classfile) (".class".length)) "Test" = true ∨
     strEndsWith (strDropRight (basename sampleTest.classfile) (".class".length)) "TestCase" = true) :=
  ⟨by decide,
   (default_chain_accepted_shape [sampleTest] sampleTest (by decide)).2.2.1⟩

/-- C10: an include filter built from the empty (but supplied) pattern list
returns false for every descriptor; consequently the chain built with empty
include patterns selects no test classes from any classfile list, unlike the
chain built with include patterns absent (None), which accepts some
descriptor. -/
theorem empty_include_patterns_rejects_all (exc : Option (List String))
    (cs : List Classfile) (c : Classfile) :
    IncludePatternsFilter.accept [] c = false ∧
    selectTestClasses (mkFilters (some []) exc) cs = [] ∧
    sampleTest ∈ selectTestClasses (mkFilters none none) [sampleTest] := by
  refine ⟨rfl, ?_, by decide⟩
  rw [selectTestClasses_eq_filter]
  have hall : ∀ x : Classfile, chainAccepts (mkFilters (some []) exc) x = false := by
    intro x
    cases exc <;>
      simp [chainAccepts, mkFilters, runFilter, IncludePatternsFilter.accept]
  simp [hall]

/-!
Module discovery and inclusion (MavenProject._walk in mavenproject.py).
-/

/-- A discovered Maven module, identified by its root directory, as built by
the Module constructor during the project walk. -/
structure MavenModule where
  root : String
deriving DecidableEq, Repr

/-- Models MavenModule.name: the basename of the module root. -/
def MavenModule.name (m : MavenModule) : String := basename m.root

/-- Exceptions the module-inclusion step of MavenProject._walk can raise:
ModuleNotFoundException carrying the names it reports, the ValueError that
list.remove raises on an absent element, and the failure of the assert
statement. -/
inductive WalkError
  | moduleNotFound (missing : List String)
  | valueError
  | assertionError
deriving DecidableEq, Repr

/-- Models the loop removing each included module's name from the
include_modules list (list.remove drops the first occurrence). The Bool
records whether a remove failed, which in Python raises ValueError; the
returned list is the list's state when the loop stopped. -/
def removeLoop : List MavenModule → List String → List String × Bool
  | [], req => (req, false)
  | m :: ms, req =>
    if m.name ∈ req then removeLoop ms (req.erase m.name) else (req, true)

/-- Models the module-inclusion step of MavenProject._walk (the
include_modules handling of mavenproject.py): keep the modules whose name is
in the requested list; if their number differs from the length of the
requested list, remove each kept module's name from the requested list and
raise ModuleNotFoundException with what remains. The first component is the
outcome (the included module list, or the exception raised); the second is
the final state of the caller-supplied include_modules list, which the
constructor aliases and mutates in place. -/
def selectIncludedModules (modules : List MavenModule)
    (include_modules : Option (List String)) :
    Except WalkError (List MavenModule) × Option (List String) :=
  match include_modules with
  | none => (Except.ok modules, none)
  | some req =>
    let included := modules.filter (fun m => decide (m.name ∈ req))
    if included.length = req.length then (Except.ok included, some req)
    else
      let rl := removeLoop included req
      if rl.2 then (Except.error WalkError.valueError, some rl.1)
      else if rl.1.length > 0 then
        (Except.error (WalkError.moduleNotFound rl.1), some rl.1)
      else (Except.error WalkError.assertionError, some rl.1)

/-- Helper: when the requested list and the module names are duplicate-free
and every module's name occurs in the requested list, the removal loop
succeeds and leaves exactly the requested names no module matches. -/
theorem removeLoop_eq (ms : List MavenModule) (req : List String)
    (hreq : req.Nodup) (hms : (ms.map MavenModule.name).Nodup)
    (hin : ∀ m ∈ ms, m.name ∈ req) :
    removeLoop ms req =
      (req.filter (fun n => !((ms.map MavenModule.name).contains n)), false) := by
  induction ms generalizing req with
  | nil => simp [removeLoop]
  | cons m ms ih =>
    have hmem : m.name ∈ req := hin m (by simp)
    have hcons : m.name ∉ ms.map MavenModule.name ∧
        (ms.map MavenModule.name).Nodup := by
      rw [List.map_cons] at hms
      exact List.nodup_cons.mp hms
    have hin2 : ∀ m' ∈ ms, m'.name ∈ req.erase m.name := by
      intro m' hm'
      have hne : m'.name ≠ m.name := by
        intro h
        exact hcons.1 (h ▸ List.mem_map_of_mem MavenModule.name hm')
      exact (List.mem_erase_of_ne hne).mpr (hin m' (List.mem_cons_of_mem _ hm'))
    have hih := ih (req.erase m.name) (hreq.erase m.name) hcons.2 hin2
    simp only [removeLoop, if_pos hmem, hih]
    refine Prod.ext ?_ rfl
    rw [hreq.erase_eq_filter, List.filter_filter]
    apply List.filter_congr
    intro n _
    simp only [List.map_cons, List.contains_cons, Bool.not_or, bne]
    rw [Bool.and_comm]

/-- Helper: a name is among the names of the modules kept by the inclusion
filter exactly when it is both a discovered module's name and requested. -/
theorem mem_included_names (modules : List MavenModule) (req : List String)
    (n : String) :
    n ∈ (modules.filter (fun m => decide (m.name ∈ req))).map MavenModule.name ↔
      n ∈ modules.map MavenModule.name ∧ n ∈ req := by
  simp only [List.mem_map, List.mem_filter, decide_eq_true_eq]
  constructor
  · rintro ⟨m, ⟨hm, hr⟩, he⟩
    exact ⟨⟨m, hm, he⟩, he ▸ hr⟩
  · rintro ⟨⟨m, hm, he⟩, hr⟩
    exact ⟨m, ⟨hm, he ▸ hr⟩, he⟩

/-- Helper: with a duplicate-free requested list and pairwise-distinct
discovered module names, a requested name without a matching module makes
the inclusion step raise ModuleNotFoundException carrying exactly the
requested names minus the matched ones (the requested-minus-matched set
difference), and leaves the caller's aliased list mutated to that same
remainder. -/
theorem selectIncludedModules_error (modules : List MavenModule) (req : List String)
    (hreq : req.Nodup) (hmods : (modules.map MavenModule.name).Nodup)
    (hmiss : ∃ n ∈ req, n ∉ modules.map MavenModule.name) :
    selectIncludedModules modules (some req) =
      (Except.error (WalkError.moduleNotFound
          (req.filter (fun n => !((modules.map MavenModule.name).contains n)))),
       some (req.filter (fun n => !((modules.map MavenModule.name).contains n)))) := by
  set included := modules.filter (fun m => decide (m.name ∈ req)) with hincdef
  have hsub : (included.map MavenModule.name).Sublist (modules.map MavenModule.name) :=
    List.Sublist.map _ (List.filter_sublist modules)
  have hincnodup : (included.map MavenModule.name).Nodup :=
    List.Nodup.sublist hsub hmods
  have hinref : ∀ m ∈ included, m.name ∈ req := by
    intro m hm
    exact of_decide_eq_true (List.mem_filter.mp hm).2
  have hlen : included.length ≠ req.length := by
    intro hlen
    have hsubset : (included.map MavenModule.name) ⊆ req := by
      intro n hn
      rcases List.mem_map.mp hn with ⟨m, hm, he⟩
      exact he ▸ hinref m hm
    have hperm := (List.subperm_of_subset hincnodup hsubset).perm_of_length_le
      (le_of_eq (by rw [List.length_map, hlen]))
    rcases hmiss with ⟨n, hn, hnm⟩
    have hmem : n ∈ included.map MavenModule.name := hperm.mem_iff.mpr hn
    exact hnm ((mem_included_names modules req n).mp hmem).1
  have hrl := removeLoop_eq included req hreq hincnodup hinref
  have hremeq : req.filter (fun n => !((included.map MavenModule.name).contains n)) =
      req.filter (fun n => !((modules.map MavenModule.name).contains n)) := by
    apply List.filter_congr
    intro n hn
    have hiff : n ∈ included.map MavenModule.name ↔ n ∈ modules.map MavenModule.name := by
      rw [hincdef, mem_included_names]
      exact ⟨fun h => h.1, fun h => ⟨h, hn⟩⟩
    simp [hiff]
  have hpos : 0 < (req.filter
      (fun n => !((modules.map MavenModule.name).contains n))).length := by
    rcases hmiss with ⟨n, hn, hnm⟩
    refine List.length_pos.mpr (List.ne_nil_of_mem (List.mem_filter.mpr ⟨hn, ?_⟩))
    simp [hnm]
  rw [show selectIncludedModules modules (some req) =
      (if included.length = req.length then (Except.ok included, some req)
       else
        if (removeLoop included req).2 then
          (Except.error WalkError.valueError, some (removeLoop included req).1)
        else if (removeLoop included req).1.length > 0 then
          (Except.error (WalkError.moduleNotFound (removeLoop included req).1),
           some (removeLoop included req).1)
        else (Except.error WalkError.assertionError, some (removeLoop included req).1))
    from rfl]
  rw [if_neg hlen, hrl]
  simp only [hremeq]
  rw [if_neg (by simp), if_pos hpos]

/-- Helper: with a duplicate-free requested list and pairwise-distinct
discovered module names, if every requested name has a matching module the
inclusion step succeeds with the matching modules and leaves the caller's
list untouched. -/
theorem selectIncludedModules_ok (modules : List MavenModule) (req : List String)
    (hreq : req.Nodup) (hmods : (modules.map MavenModule.name).Nodup)
    (hall : ∀ n ∈ req, n ∈ modules.map MavenModule.name) :
    selectIncludedModules modules (some req) =
      (Except.ok (modules.filter (fun m => decide (m.name ∈ req))), some req) := by
  set included := modules.filter (fun m => decide (m.name ∈ req)) with hincdef
  have hincnodup : (included.map MavenModule.name).Nodup :=
    List.Nodup.sublist (List.Sublist.map _ (List.filter_sublist modules)) hmods
  have hperm : (included.map MavenModule.name).Perm req := by
    rw [List.perm_ext_iff_of_nodup hincnodup hreq]
    intro n
    rw [hincdef, mem_included_names]
    exact ⟨fun h => h.2, fun h => ⟨hall n h, h⟩⟩
  have hlen : included.length = req.length := by
    have := hperm.length_eq
    rwa [List.length_map] at this
  rw [show selectIncludedModules modules (some req) =
      (if included.length = req.length then (Except.ok included, some req)
       else
        if (removeLoop included req).2 then
          (Except.error WalkError.valueError, some (removeLoop included req).1)
        else if (removeLoop included req).1.length > 0 then
          (Except.error (WalkError.moduleNotFound (removeLoop included req).1),
           some (removeLoop included req).1)
        else (Except.error WalkError.assertionError, some (removeLoop included req).1))
    from rfl]
  rw [if_pos hlen]

/-- C1 counterexample: with two discovered modules both named a (roots p/a
and q/a) and requested list [a, b], the requested name b matches no module,
yet the inclusion step succeeds and raises nothing: the duplicate module
name fools the length comparison, so the reported missing set is not the
requested-minus-matched difference (there is no report at all). -/
theorem module_inclusion_missing_counterexample :
    (∃ n ∈ ["a", "b"],
      n ∉ [MavenModule.mk "p/a", MavenModule.mk "q/a"].map MavenModule.name) ∧
    (selectIncludedModules [MavenModule.mk "p/a", MavenModule.mk "q/a"]
        (some ["a", "b"])).1 =
      Except.ok [MavenModule.mk "p/a", MavenModule.mk "q/a"] := by
  exact ⟨by decide, rfl⟩

/-- C1 amended: provided the requested list has no duplicate names and the
discovered modules have pairwise-distinct names, a requested name with no
matching module makes construction fail with ModuleNotFoundException whose
reported missing names are exactly the requested list minus the matched
names (set difference, no extras and no omissions). -/
theorem module_inclusion_missing (modules : List MavenModule) (req : List String)
    (hreq : req.Nodup) (hmods : (modules.map MavenModule.name).Nodup)
    (hmiss : ∃ n ∈ req, n ∉ modules.map MavenModule.name) :
    (selectIncludedModules modules (some req)).1 =
      Except.error (WalkError.moduleNotFound
        (req.filter (fun n => !((modules.map MavenModule.name).contains n)))) := by
  rw [selectIncludedModules_error modules req hreq hmods hmiss]

/-- Witness for the amended module-inclusion claim at a concrete project:
one module named x, requested [x, y], missing report exactly [y]. -/
theorem module_inclusion_missing_witness :
    (selectIncludedModules [MavenModule.mk "p/x"] (some ["x", "y"])).1 =
      Except.error (WalkError.moduleNotFound ["y"]) := by
  rw [module_inclusion_missing [MavenModule.mk "p/x"] ["x", "y"]
    (by decide) (by decide) (by decide)]
  rfl

/-- C9 counterexample: with modules p/a and q/a (both named a) and requested
list [a, b], at least one requested name (b) matches no module, yet the
constructor neither mutates the caller's list nor raises: the whole pair
(outcome, final list state) is the success result with the list unchanged. -/
theorem include_modules_mutation_counterexample :
    (∃ n ∈ ["a", "b"],
      n ∉ [MavenModule.mk "p/a", MavenModule.mk "q/a"].map MavenModule.name) ∧
    selectIncludedModules [MavenModule.mk "p/a", MavenModule.mk "q/a"]
        (some ["a", "b"]) =
      (Except.ok [MavenModule.mk "p/a", MavenModule.mk "q/a"], some ["a", "b"]) := by
  exact ⟨by decide, rfl⟩

/-- C9 amended: provided the requested list has no duplicate names and the
discovered modules have pairwise-distinct names, when some requested name
has no matching module the constructor mutates the caller-supplied aliased
list in place to the requested names minus the matched ones before raising
ModuleNotFoundException, and when every requested name matches, the
caller's list is left unchanged on the success path. -/
theorem include_modules_mutation (modules : List MavenModule) (req : List String)
    (hreq : req.Nodup) (hmods : (modules.map MavenModule.name).Nodup) :
    ((∃ n ∈ req, n ∉ modules.map MavenModule.name) →
      (selectIncludedModules modules (some req)).2 =
        some (req.filter (fun n => !((modules.map MavenModule.name).contains n))) ∧
      (selectIncludedModules modules (some req)).1 =
        Except.error (WalkError.moduleNotFound
          (req.filter (fun n => !((modules.map MavenModule.name).contains n))))) ∧
    ((∀ n ∈ req, n ∈ modules.map MavenModule.name) →
      (selectIncludedModules modules (some req)).2 = some req ∧
      (selectIncludedModules modules (some req)).1 =
        Except.ok (modules.filter (fun m => decide (m.name ∈ req)))) := by
  constructor
  · intro hmiss
    rw [selectIncludedModules_error modules req hreq hmods hmiss]
    exact ⟨rfl, rfl⟩
  · intro hall
    rw [selectIncludedModules_ok modules req hreq hmods hall]
    exact ⟨rfl, rfl⟩

/-- Witness for the mutation claim at a concrete project: one module named
m1, requested [m1, m2]; the caller's list ends as [m2] and the error reports
[m2]; and with requested [m1] alone the list is returned unchanged. -/
theorem include_modules_mutation_witness :
    ((selectIncludedModules [MavenModule.mk "r/m1"] (some ["m1", "m2"])).2 =
        some ["m2"] ∧
      (selectIncludedModules [MavenModule.mk "r/m1"] (some ["m1", "m2"])).1 =
        Except.error (WalkError.moduleNotFound ["m2"])) ∧
    (selectIncludedModules [MavenModule.mk "r/m1"] (some ["m1"])).2 =
      some ["m1"] := by
  constructor
  · have h := (include_modules_mutation [MavenModule.mk "r/m1"] ["m1", "m2"]
      (by decide) (by decide)).1 (by decide)
    simpa using h
  · have h := (include_modules_mutation [MavenModule.mk "r/m1"] ["m1"]
      (by decide) (by decide)).2 (by decide)
    exact h.1

/-!
Artifact classification (the jar-collection loop of MavenProject._walk).
-/

/-- Destination of one regular file directly under a module's target
directory: appended to the module's test artifacts, appended to its
source/runtime artifacts, or ignored. -/
inductive ArtifactClass
  | test
  | source
  | ignored
deriving DecidableEq, Repr

/-- Models the artifact-collection branch of MavenProject._walk for one
regular file named entry directly under a module's target directory, given
whether the module is in included_modules: test-suffixed jars go to the test
artifacts only of included modules; otherwise (elif) plain jars that are not
sources or javadoc jars go to the source artifacts of every module. -/
def artifactAction (entry : String) (isIncluded : Bool) : ArtifactClass :=
  if strEndsWith entry "-test-sources.jar" || strEndsWith entry "-tests.jar" then
    if isIncluded then ArtifactClass.test else ArtifactClass.ignored
  else if strEndsWith entry ".jar" && !strEndsWith entry "-sources.jar" &&
      !strEndsWith entry "-javadoc.jar" then
    ArtifactClass.source
  else ArtifactClass.ignored

/-- C5 counterexample: the file foo-tests.jar ends in .jar and neither in
-sources.jar nor -javadoc.jar, so the claim says it is recorded as a
source/runtime artifact regardless of inclusion; the code's elif never
records a test-suffixed jar as a source artifact (here, for a non-included
module, it records nothing at all). -/
theorem artifact_classification_counterexample :
    strEndsWith "foo-tests.jar" ".jar" = true ∧
    strEndsWith "foo-tests.jar" "-sources.jar" = false ∧
    strEndsWith "foo-tests.jar" "-javadoc.jar" = false ∧
    artifactAction "foo-tests.jar" false ≠ ArtifactClass.source := by
  decide

/-- C5 amended: a file ending in -test-sources.jar or -tests.jar is recorded
as a test artifact exactly when the module is included, and is never a
source artifact; a file ending in .jar that matches none of the suffixes
-test-sources.jar, -tests.jar, -sources.jar, -javadoc.jar is recorded as a
source/runtime artifact regardless of inclusion; every other file is
ignored. -/
theorem artifact_classification (entry : String) (inc : Bool) :
    ((strEndsWith entry "-test-sources.jar" = true ∨
      strEndsWith entry "-tests.jar" = true) →
      (artifactAction entry inc = ArtifactClass.test ↔ inc = true) ∧
      artifactAction entry inc ≠ ArtifactClass.source) ∧
    ((strEndsWith entry ".jar" = true ∧
      strEndsWith entry "-test-sources.jar" = false ∧
      strEndsWith entry "-tests.jar" = false ∧
      strEndsWith entry "-sources.jar" = false ∧
      strEndsWith entry "-javadoc.jar" = false) →
      artifactAction entry inc = ArtifactClass.source) ∧
    ((strEndsWith entry "-test-sources.jar" = false ∧
      strEndsWith entry "-tests.jar" = false ∧
      (strEndsWith entry ".jar" = false ∨ strEndsWith entry "-sources.jar" = true ∨
       strEndsWith entry "-javadoc.jar" = true)) →
      artifactAction entry inc = ArtifactClass.ignored) := by
  refine ⟨?_, ?_, ?_⟩
  · rintro (h | h) <;> cases inc <;> simp [artifactAction, h]
  · rintro ⟨h1, h2, h3, h4, h5⟩
    simp [artifactAction, h1, h2, h3, h4, h5]
  · rintro ⟨h2, h3, hrest⟩
    rcases hrest with h | h | h <;> simp [artifactAction, h2, h3, h]

/-- Witness for the amended artifact classification: a-tests.jar of an
included module is a test artifact and not a source artifact. -/
theorem artifact_classification_witness :
    (strEndsWith "a-tests.jar" "-test-sources.jar" = true ∨
      strEndsWith "a-tests.jar" "-tests.jar" = true) ∧
    (artifactAction "a-tests.jar" true = ArtifactClass.test ↔ true = true) ∧
    artifactAction "a-tests.jar" true ≠ ArtifactClass.source :=
  ⟨Or.inr (by decide),
   (artifact_classification "a-tests.jar" true).1 (Or.inr (by decide))⟩
